import Mathlib

/-!
A verification development for the artifact-tool orchestration layer of a
DevOps command-line extension (`artifacttool.py`).  The Python source is
shallowly embedded: JSON values parsed by `json.loads` become an inductive
type, the dynamic Python operations used by the code (`in` membership,
subscripting, truthiness, `float()` conversion, `str()` rendering) become
total Lean functions returning `Except`-style results where Python would
raise, and the effectful operations (logger calls, the progress callback,
raising `CLIError`, HTTP requests issued by the updater) are recorded in
result structures.  JSON numbers are modelled as exact rationals; the
percent computation `100 * float(a) / float(b)` is modelled as exact
rational arithmetic.
-/

namespace ArtifactTool

/-- A parsed JSON value, as produced by `json.loads`.  Numbers are modelled
as exact rationals; objects are association lists of string keys (Python
dicts produced by the JSON parser have distinct keys). -/
inductive JValue where
  | jnull
  | jbool (b : Bool)
  | jnum (q : ℚ)
  | jstr (s : String)
  | jarr (elems : List JValue)
  | jobj (fields : List (String × JValue))

/-- Errors the embedded Python code can raise: `CLIError` (raised
explicitly at line 116 of `artifacttool.py`), `TypeError` (membership or
subscript on a non-container, `float()` of a non-number), `KeyError`
(missing dict key), `ZeroDivisionError` (progress division by zero),
`AttributeError` (calling `.strip` on a `None` ETag header). -/
inductive PyError where
  | cliError (msg : String)
  | typeError
  | keyError (k : String)
  | zeroDivisionError
  | attributeError
  deriving DecidableEq, Repr

/-- Log levels used through the module logger (`logger.debug` /
`logger.info` / `logger.warning`). -/
inductive LogLevel where
  | debug
  | info
  | warning
  deriving DecidableEq, Repr

/-- First-match lookup of a key in a parsed JSON object. -/
def jlookup (k : String) : List (String × JValue) → Option JValue
  | [] => none
  | (k', v) :: rest => if k' = k then some v else jlookup k rest

/-- Python `v == s` for a string literal `s`: true only for equal strings
(values of other types are never equal to a string). -/
def eqStr (v : JValue) (s : String) : Bool :=
  match v with
  | .jstr t => t = s
  | _ => false

/-- Is `needle` a contiguous sublist of `hay`?  (Python substring test.) -/
def subList (needle : List Char) : List Char → Bool
  | [] => needle.isEmpty
  | c :: rest => needle.isPrefixOf (c :: rest) || subList needle rest

/-- Python `needle in hay` for strings: substring containment. -/
def strIn (needle hay : String) : Bool :=
  subList needle.toList hay.toList

/-- Python `k in v` where `k` is a string: key membership for dicts,
substring for strings, element equality for lists, `TypeError` for
non-container values (`None`, booleans, numbers). -/
def pyContains (k : String) : JValue → Except PyError Bool
  | .jobj fields => .ok (jlookup k fields).isSome
  | .jstr s => .ok (strIn k s)
  | .jarr elems => .ok (elems.any (eqStr · k))
  | .jnull => .error .typeError
  | .jbool _ => .error .typeError
  | .jnum _ => .error .typeError

/-- Python `v[k]` where `k` is a string: dict lookup (raising `KeyError`
when absent); strings and lists require integer indices, so a string key
raises `TypeError`, as does subscripting any non-container. -/
def pySubscript (k : String) : JValue → Except PyError JValue
  | .jobj fields =>
      match jlookup k fields with
      | some v => .ok v
      | none => .error (.keyError k)
  | _ => .error .typeError

/-- Python truthiness of a parsed JSON value. -/
def pyTruthy : JValue → Bool
  | .jnull => false
  | .jbool b => b
  | .jnum q => q ≠ 0
  | .jstr s => s ≠ ""
  | .jarr elems => !elems.isEmpty
  | .jobj fields => !fields.isEmpty

/-- Rendering of a JSON number as Python renders the corresponding parsed
value in `"%s"` formatting: integers without a decimal part.  (The
non-integer rendering is a simplification of Python float formatting; no
processed line in the claims carries a non-integer count.) -/
def ratStr (q : ℚ) : String :=
  if q.den = 1 then toString q.num else toString q.num ++ "/" ++ toString q.den

/-- Python `str()` / `"%s"` rendering of a parsed JSON value.  Containers
are given a fixed placeholder rendering: the claims under verification
never format a container value, and modelling Python's recursive
`repr`-based rendering is unnecessary for them. -/
def pyStr : JValue → String
  | .jnull => "None"
  | .jbool b => if b then "True" else "False"
  | .jnum q => ratStr q
  | .jstr s => s
  | .jarr _ => "[...]"
  | .jobj _ => "{...}"

/-- Python `float(v)`: identity on numbers, 1/0 on booleans, `TypeError`
(or `ValueError`) on everything else.  (Numeric strings would convert in
Python; no structured log line carries string-valued counts, and the
conversion failure is modelled uniformly as `typeError`.) -/
def pyFloat : JValue → Except PyError ℚ
  | .jnum q => .ok q
  | .jbool b => .ok (if b then 1 else 0)
  | _ => .error .typeError

/-- The outcome of `json.loads(line)` inside the `try` of
`_process_stderr`: either the parse raised (caught by the bare `except`)
or it produced a value.  Note `json.loads "null"` produces Python `None`,
which the surrounding code cannot distinguish from a parse failure except
for the extra debug log emitted on the exception path. -/
inductive ParseOutcome where
  | failure
  | success (v : JValue)

/-- Everything observable from one `_process_stderr(line, cb)` call: the
logger calls made, the `update_progress_callback(message, percent)` calls
made, and the exception propagated out of the call, if any. -/
structure LineResult where
  logs : List (LogLevel × String)
  progress : List (String × ℚ)
  error : Option PyError

/-- The debug message logged when JSON parsing of a log line fails
(line 107 of `artifacttool.py`). -/
def failParseMsg : String :=
  "Failed to parse JSON log line. Ensure that ArtifactTool structured logging is enabled."

/-- Lines 109–124 of `artifacttool.py`: the message-field handling.
`json_line` is the Python variable of the same name (`none` both on parse
failure and for JSON `null`).  Returns the logger calls made and the
exception raised, if any; `CLIError` is raised for `Critical`/`Error`
severities with the exception text appended when `@x` is present and
truthy. -/
def handleMessage (json_line : Option JValue) (line : String) :
    List (LogLevel × String) × Option PyError :=
  match json_line with
  | none => ([(.debug, line)], none)
  | some v =>
    match pyContains "@m" v with
    | .error e => ([], some e)
    | .ok false => ([(.debug, line)], none)
    | .ok true =>
      match pyContains "@l" v with
      | .error e => ([], some e)
      | .ok hasL =>
        match (if hasL then pySubscript "@l" v else .ok (.jstr "Information") :
            Except PyError JValue) with
        | .error e => ([], some e)
        | .ok log_level =>
          match pySubscript "@m" v with
          | .error e => ([], some e)
          | .ok message =>
            if eqStr log_level "Critical" || eqStr log_level "Error" then
              match pyContains "@x" v with
              | .error e => ([], some e)
              | .ok hasX =>
                match (if hasX then (pySubscript "@x" v).map some else .ok none :
                    Except PyError (Option JValue)) with
                | .error e => ([], some e)
                | .ok ex =>
                  let msg :=
                    match ex with
                    | some x => if pyTruthy x then pyStr message ++ "\n" ++ pyStr x
                                else pyStr message
                    | none => pyStr message
                  ([], some (.cliError msg))
            else if eqStr log_level "Warning" then ([(.warning, pyStr message)], none)
            else if eqStr log_level "Information" then ([(.info, pyStr message)], none)
            else ([(.debug, pyStr message)], none)

/-- One progress-event block of lines 129–145 of `artifacttool.py`:
look up the two numeric fields, convert with `float()`, divide, and invoke
the callback with `"<pre><done>/<total><suf>"` and
`100 * done / total`. -/
def emitProgress (v : JValue) (doneKey totalKey pre suf : String) :
    List (String × ℚ) × Option PyError :=
  match pySubscript doneKey v with
  | .error e => ([], some e)
  | .ok dv =>
    match pySubscript totalKey v with
    | .error e => ([], some e)
    | .ok tv =>
      match pyFloat dv with
      | .error e => ([], some e)
      | .ok d =>
        match pyFloat tv with
        | .error e => ([], some e)
        | .ok t =>
          if t = 0 then ([], some .zeroDivisionError)
          else ([(pre ++ pyStr dv ++ "/" ++ pyStr tv ++ suf, 100 * d / t)], none)

/-- Lines 126–145 of `artifacttool.py`: the event-descriptor handling.
Guarded by `json_line and 'EventId' in json_line and 'Name' in
json_line['EventId']`.  The source tests the three event names with three
independent `if`s; since a value equals at most one of the three distinct
name strings, sequential `if`/`else if` dispatch is equivalent. -/
def handleEvents (json_line : Option JValue) :
    List (String × ℚ) × Option PyError :=
  match json_line with
  | none => ([], none)
  | some v =>
    if pyTruthy v then
      match pyContains "EventId" v with
      | .error e => ([], some e)
      | .ok false => ([], none)
      | .ok true =>
        match pySubscript "EventId" v with
        | .error e => ([], some e)
        | .ok eid =>
          match pyContains "Name" eid with
          | .error e => ([], some e)
          | .ok false => ([], none)
          | .ok true =>
            match pySubscript "Name" eid with
            | .error e => ([], some e)
            | .ok event_name =>
              if eqStr event_name "ProcessingFiles" then
                emitProgress v "ProcessedFiles" "TotalFiles" "Pre-upload processing: " " files"
              else if eqStr event_name "Uploading" then
                emitProgress v "UploadedBytes" "TotalBytes" "Uploading: " " bytes"
              else if eqStr event_name "Downloading" then
                emitProgress v "DownloadedBytes" "TotalBytes" "Downloading: " " bytes"
              else ([], none)
    else ([], none)

/-- `ArtifactToolInvoker._process_stderr(line, update_progress_callback)`
(lines 102–145 of `artifacttool.py`), as a function of the outcome of
`json.loads(line)`.  A raised exception aborts the call: when the
message handling raises, the event handling is never reached. -/
def processLine (parsed : ParseOutcome) (line : String) : LineResult :=
  let (json_line, logs0) : Option JValue × List (LogLevel × String) :=
    match parsed with
    | .failure => (none, [(.debug, failParseMsg)])
    | .success .jnull => (none, [])
    | .success v => (some v, [])
  let m := handleMessage json_line line
  match m.2 with
  | some e => { logs := logs0 ++ m.1, progress := [], error := some e }
  | none =>
    let ev := handleEvents json_line
    { logs := logs0 ++ m.1, progress := ev.1, error := ev.2 }

/-! ## Tool updater (`ArtifactToolUpdater`, lines 26–70) -/

/-- HTTP request methods the updater can issue (`requests.head`,
`requests.get`). -/
inductive HttpMethod where
  | head
  | get
  deriving DecidableEq, Repr

/-- Everything observable from one `get_latest_artifacttool` call: the
HTTP requests issued, in order, and the returned path (or the exception
propagated). -/
structure UpdaterRun where
  requests : List (HttpMethod × String)
  result : Except PyError String

def DEFAULT_ARTIFACTTOOL_BINARY_URL : String :=
  "https://zachtest1.blob.core.windows.net/test/artifacttool-win10-x64-Release.zip"

/-- `os.path.join` for two components, with a POSIX separator. -/
def joinPath (a b : String) : String := a ++ "/" ++ b

/-- Python `s.strip("\"")` on a character list: remove every leading and
trailing quote character. -/
def stripQuotesList (l : List Char) : List Char :=
  ((l.dropWhile (· = '"')).reverse.dropWhile (· = '"')).reverse

/-- Python `s.replace("0x", "")`: remove every non-overlapping occurrence
of `0x`, scanning left to right. -/
def replace0x : List Char → List Char
  | [] => []
  | [c] => [c]
  | c :: d :: rest =>
      if c = '0' ∧ d = 'x' then replace0x rest
      else c :: replace0x (d :: rest)

/-- Line 53 of `artifacttool.py`:
`etag = head_result.headers.get('ETag').strip("\"").replace("0x", "").lower()`
applied to a present header value. -/
def normalize_etag (raw : String) : String :=
  String.mk ((replace0x (stripQuotesList raw.toList)).map Char.toLower)

/-- Lines 44–50 of `artifacttool.py`: the download URL, from the
`VSTS_ARTIFACTTOOL_OVERRIDE_URL` environment variable when set, else the
hardcoded default. -/
def artifacttool_url (override_url : Option String) : String :=
  override_url.getD DEFAULT_ARTIFACTTOOL_BINARY_URL

/-- Lines 56–61 of `artifacttool.py`: the version-tagged binary path
`<tmp>/ArtifactTool/<etag>/artifacttool-win10-x64-Release/ArtifactTool.exe`. -/
def artifacttool_binary_path (tempDir etag : String) : String :=
  joinPath (joinPath (joinPath (joinPath tempDir "ArtifactTool") etag)
    "artifacttool-win10-x64-Release") "ArtifactTool.exe"

/-- `ArtifactToolUpdater._update_artifacttool` (lines 42–70).  The network
and the filesystem are parameters: `etagHeader url` is the `ETag` header of
the HEAD response at `url` (a missing header makes
`None.strip(...)` raise `AttributeError`), and `pathExists` is
`os.path.exists`.  The requests issued are recorded in order. -/
def update_artifacttool (override_url : Option String)
    (etagHeader : String → Option String) (pathExists : String → Bool)
    (tempDir : String) : UpdaterRun :=
  let url := artifacttool_url override_url
  match etagHeader url with
  | none => { requests := [(.head, url)], result := .error .attributeError }
  | some raw =>
    let etag := normalize_etag raw
    let binary_path := artifacttool_binary_path tempDir etag
    if pathExists binary_path then
      { requests := [(.head, url)], result := .ok binary_path }
    else
      { requests := [(.head, url), (.get, url)], result := .ok binary_path }

/-- `ArtifactToolUpdater.get_latest_artifacttool` (lines 31–40):
`override_path` is the value of the `VSTS_ARTIFACTTOOL_OVERRIDE_PATH`
environment variable; when set it is returned verbatim, with no update
check. -/
def get_latest_artifacttool (override_path override_url : Option String)
    (etagHeader : String → Option String) (pathExists : String → Bool)
    (tempDir : String) : UpdaterRun :=
  match override_path with
  | some p => { requests := [], result := .ok p }
  | none => update_artifacttool override_url etagHeader pathExists tempDir

/-! ## Tool invoker (`ArtifactToolInvoker`, lines 72–100) -/

/-- The fixed environment-variable name used to pass the credential to the
child process. -/
def PATVAR : String := "VSTS_ARTIFACTTOOL_PATVAR"

/-- What `invoke_artifacttool` hands to `self.run`: the command argument
list, the child environment, and the initial progress message. -/
structure RunCall where
  command_args : List String
  env : List (String × String)
  initial_progress_message : String

/-- Python dict assignment `d[k] = v` on an association-list environment:
replace the first binding of `k`, or append a new one. -/
def envSet : List (String × String) → String → String → List (String × String)
  | [], k, v => [(k, v)]
  | (k', v') :: rest, k, v =>
      if k' = k then (k, v) :: rest else (k', v') :: envSet rest k v

/-- First-match lookup in an association-list environment. -/
def envLookup (k : String) : List (String × String) → Option String
  | [] => none
  | (k', v) :: rest => if k' = k then some v else envLookup k rest

/-- `ArtifactToolInvoker.invoke_artifacttool` (lines 88–100).  The two
external collaborators are parameters: `artifacttool_path` is the result
of `get_latest_artifacttool`, and `password` is `creds.password` from
`_get_credentials(team_instance)`; `environ` is the parent `os.environ`.
The child environment is a copy of `environ` with `PATVAR` bound to the
credential, and the command line is the tool path followed by `args`. -/
def invoke_artifacttool (artifacttool_path password : String)
    (environ : List (String × String)) (args : List String)
    (initial_progress_message : String) : RunCall :=
  { command_args := artifacttool_path :: args
    env := envSet environ PATVAR password
    initial_progress_message := initial_progress_message }

/-- `ArtifactToolInvoker.download_upack` (lines 79–80). -/
def download_upack (team_instance feed package_name package_version path :
    String) (artifacttool_path password : String)
    (environ : List (String × String)) : RunCall :=
  invoke_artifacttool artifacttool_path password environ
    ["upack", "download", "--service", team_instance, "--patvar", PATVAR,
     "--feed", feed, "--package-name", package_name,
     "--package-version", package_version, "--path", path]
    "Downloading"

/-- `ArtifactToolInvoker.publish_upack` (lines 82–86).  `description` is
`None` or a string; `if description:` appends the `--description` flag only
for a truthy (non-empty) string. -/
def publish_upack (team_instance feed package_name package_version : String)
    (description : Option String) (path : String)
    (artifacttool_path password : String)
    (environ : List (String × String)) : RunCall :=
  let args := ["upack", "publish", "--service", team_instance, "--patvar",
    PATVAR, "--feed", feed, "--package-name", package_name,
    "--package-version", package_version, "--path", path]
  let args :=
    match description with
    | some d => if d ≠ "" then args ++ ["--description", d] else args
    | none => args
  invoke_artifacttool artifacttool_path password environ args "Publishing"

/-! ## Helper lemmas -/

theorem isPrefixOf_append_self (l t : List Char) : l.isPrefixOf (l ++ t) = true := by
  induction l with
  | nil => simp [List.isPrefixOf]
  | cons c cs ih => simp [List.isPrefixOf, ih]

theorem subList_of_isPrefixOf {x h : List Char} (hp : x.isPrefixOf h = true) :
    subList x h = true := by
  cases h with
  | nil =>
    cases x with
    | nil => rfl
    | cons c cs => simp [List.isPrefixOf] at hp
  | cons c rest => simp [subList, hp]

theorem subList_append_mid (a x b : List Char) : subList x (a ++ (x ++ b)) = true := by
  induction a with
  | nil => exact subList_of_isPrefixOf (isPrefixOf_append_self x b)
  | cons c cs ih => simp [subList, ih]

/-- A string is found inside any concatenation that carries it in the
middle. -/
theorem strIn_append_append (a x b : String) : strIn x (a ++ x ++ b) = true := by
  have h : (a ++ x ++ b).toList = a.toList ++ (x.toList ++ b.toList) := by
    show (a ++ x ++ b).data = a.data ++ (x.data ++ b.data)
    simp [String.data_append]
  rw [strIn, h]
  exact subList_append_mid a.toList x.toList b.toList

theorem strIn_self (x : String) : strIn x x = true := by
  have h := strIn_append_append "" x ""
  rwa [String.empty_append, String.append_empty] at h

theorem envLookup_envSet_self (env : List (String × String)) (k v : String) :
    envLookup k (envSet env k v) = some v := by
  induction env with
  | nil => simp [envSet, envLookup]
  | cons p rest ih =>
    obtain ⟨a, b⟩ := p
    by_cases h : a = k
    · simp [envSet, envLookup, h]
    · simp [envSet, envLookup, h, ih]

theorem envLookup_envSet_ne (env : List (String × String)) (k v k' : String)
    (h : k' ≠ k) : envLookup k' (envSet env k v) = envLookup k' env := by
  have h2 : ¬(k = k') := fun e => h e.symm
  induction env with
  | nil => simp [envSet, envLookup, h2]
  | cons p rest ih =>
    obtain ⟨a, b⟩ := p
    by_cases ha : a = k
    · subst ha
      simp [envSet, envLookup, h2]
    · by_cases hak : a = k'
      · simp [envSet, envLookup, ha, hak, h]
      · simp [envSet, envLookup, ha, hak, ih]

theorem pyTruthy_jobj_of_lookup {k : String} {fs : List (String × JValue)}
    {v : JValue} (h : jlookup k fs = some v) : pyTruthy (.jobj fs) = true := by
  cases fs with
  | nil => simp [jlookup] at h
  | cons p rest => simp [pyTruthy]

/-- The message handling of lines 109–122 raises `CLIError` when a
message field is present with `Critical`/`Error` severity; the error text
appends the exception text when `@x` is present and truthy. -/
theorem handleMessage_raise (fs : List (String × JValue)) (line : String)
    (m lvl : JValue)
    (hm : jlookup "@m" fs = some m)
    (hl : jlookup "@l" fs = some lvl)
    (hcrit : (eqStr lvl "Critical" || eqStr lvl "Error") = true) :
    handleMessage (some (.jobj fs)) line =
      ([], some (.cliError (match jlookup "@x" fs with
        | some x => if pyTruthy x then pyStr m ++ "\n" ++ pyStr x else pyStr m
        | none => pyStr m))) := by
  cases hx : jlookup "@x" fs with
  | none => simp [handleMessage, pyContains, pySubscript, hm, hl, hcrit, hx]
  | some x => simp [handleMessage, pyContains, pySubscript, hm, hl, hcrit, hx,
      Except.map]

/-- The message handling does not raise when the message field is absent
or the (defaulted) severity is neither `Critical` nor `Error`. -/
theorem handleMessage_quiet (fs : List (String × JValue)) (line : String)
    (hq : jlookup "@m" fs = none ∨
      (eqStr ((jlookup "@l" fs).getD (.jstr "Information")) "Critical" = false ∧
       eqStr ((jlookup "@l" fs).getD (.jstr "Information")) "Error" = false)) :
    (handleMessage (some (.jobj fs)) line).2 = none := by
  rcases hq with h | ⟨hc, he⟩
  · simp [handleMessage, pyContains, h]
  · cases hm : jlookup "@m" fs with
    | none => simp [handleMessage, pyContains, hm]
    | some m =>
      cases hl : jlookup "@l" fs with
      | none =>
        simp [handleMessage, pyContains, pySubscript, hm, hl, eqStr]
      | some lvl =>
        rw [hl] at hc he
        simp only [Option.getD_some] at hc he
        simp [handleMessage, pyContains, pySubscript, hm, hl, hc, he]
        split
        · rfl
        · split <;> rfl

/-- `processLine` on a parsed object, split on whether the message
handling raised. -/
theorem processLine_jobj (fs : List (String × JValue)) (line : String) :
    processLine (.success (.jobj fs)) line =
      match (handleMessage (some (.jobj fs)) line).2 with
      | some e => { logs := (handleMessage (some (.jobj fs)) line).1,
                    progress := [], error := some e }
      | none => { logs := (handleMessage (some (.jobj fs)) line).1,
                  progress := (handleEvents (some (.jobj fs))).1,
                  error := (handleEvents (some (.jobj fs))).2 } := by
  cases h : (handleMessage (some (.jobj fs)) line).2 <;> simp [processLine, h]

/-- The event handling of lines 126–145 on an object carrying one of the
three recognized event names with its numeric fields present and a
nonzero total: one progress callback with the formatted message and the
exact percent. -/
theorem handleEvents_event (fs efs : List (String × JValue))
    (name doneKey totalKey pre suf : String) (d t : ℚ)
    (hev : jlookup "EventId" fs = some (.jobj efs))
    (hname : jlookup "Name" efs = some (.jstr name))
    (hkeys : (name = "ProcessingFiles" ∧ doneKey = "ProcessedFiles" ∧
                totalKey = "TotalFiles" ∧ pre = "Pre-upload processing: " ∧
                suf = " files") ∨
             (name = "Uploading" ∧ doneKey = "UploadedBytes" ∧
                totalKey = "TotalBytes" ∧ pre = "Uploading: " ∧
                suf = " bytes") ∨
             (name = "Downloading" ∧ doneKey = "DownloadedBytes" ∧
                totalKey = "TotalBytes" ∧ pre = "Downloading: " ∧
                suf = " bytes"))
    (hd : jlookup doneKey fs = some (.jnum d))
    (ht : jlookup totalKey fs = some (.jnum t))
    (htz : t ≠ 0) :
    handleEvents (some (.jobj fs)) =
      ([(pre ++ ratStr d ++ "/" ++ ratStr t ++ suf, 100 * d / t)], none) := by
  have htruthy : pyTruthy (.jobj fs) = true := pyTruthy_jobj_of_lookup hev
  rcases hkeys with ⟨h1, h2, h3, h4, h5⟩ | ⟨h1, h2, h3, h4, h5⟩ | ⟨h1, h2, h3, h4, h5⟩ <;>
    subst h1 <;> subst h2 <;> subst h3 <;> subst h4 <;> subst h5 <;>
    simp [handleEvents, emitProgress, pyContains, pySubscript, pyFloat, pyStr,
      eqStr, htruthy, hev, hname, hd, ht, htz]

/-! ## Claim theorems -/

/-- C1: for every subprocess log line parsing as a JSON object with a
message field `@m` and severity field `@l` equal to "Critical" or
"Error", `processLine` raises an error whose text contains the message
text; when the line also carries an exception-text field `@x`, the raised
error's text contains both the message text and the exception text. -/
theorem C1_critical_error_raises (fs : List (String × JValue)) (line : String)
    (m lvl : JValue)
    (hm : jlookup "@m" fs = some m)
    (hl : jlookup "@l" fs = some lvl)
    (hcrit : lvl = .jstr "Critical" ∨ lvl = .jstr "Error") :
    ∃ msg, (processLine (.success (.jobj fs)) line).error = some (.cliError msg)
      ∧ strIn (pyStr m) msg = true
      ∧ ∀ x : String, jlookup "@x" fs = some (.jstr x) → strIn x msg = true := by
  have hcrit' : (eqStr lvl "Critical" || eqStr lvl "Error") = true := by
    rcases hcrit with h | h <;> subst h <;> simp [eqStr]
  cases hx : jlookup "@x" fs with
  | none =>
    have hmsg : handleMessage (some (.jobj fs)) line
        = ([], some (.cliError (pyStr m))) := by
      rw [handleMessage_raise fs line m lvl hm hl hcrit', hx]
    have herr : (processLine (.success (.jobj fs)) line).error
        = some (.cliError (pyStr m)) := by
      rw [processLine_jobj, hmsg]
    refine ⟨pyStr m, herr, strIn_self _, ?_⟩
    intro x hx'
    cases hx'
  | some xv =>
    have hmsg : handleMessage (some (.jobj fs)) line
        = ([], some (.cliError
            (if pyTruthy xv then pyStr m ++ "\n" ++ pyStr xv else pyStr m))) := by
      rw [handleMessage_raise fs line m lvl hm hl hcrit', hx]
    have herr : (processLine (.success (.jobj fs)) line).error
        = some (.cliError
            (if pyTruthy xv then pyStr m ++ "\n" ++ pyStr xv else pyStr m)) := by
      rw [processLine_jobj, hmsg]
    by_cases htr : pyTruthy xv = true
    · rw [if_pos htr] at herr
      refine ⟨pyStr m ++ "\n" ++ pyStr xv, herr, ?_, ?_⟩
      · have h2 := strIn_append_append "" (pyStr m) ("\n" ++ pyStr xv)
        rwa [String.empty_append, ← String.append_assoc] at h2
      · intro x hx'
        injection hx' with hx2
        subst hx2
        have h2 := strIn_append_append (pyStr m ++ "\n") x ""
        rw [String.append_empty] at h2
        simpa [pyStr] using h2
    · rw [if_neg htr] at herr
      refine ⟨pyStr m, herr, strIn_self _, ?_⟩
      intro x hx'
      injection hx' with hx2
      subst hx2
      have hxe : x = "" := by simpa [pyTruthy] using htr
      subst hxe
      have h2 := strIn_append_append "" "" (pyStr m)
      rwa [String.empty_append, String.empty_append] at h2

/-- Witness for C1 at the line
`{"@l":"Critical","@m":"X","@x":"trace"}`: the error text contains "X"
and "trace". -/
theorem C1_critical_error_raises_witness :
    ∃ msg, (processLine (.success (.jobj [("@l", .jstr "Critical"),
        ("@m", .jstr "X"), ("@x", .jstr "trace")])) "L").error
          = some (.cliError msg)
      ∧ strIn "X" msg = true ∧ strIn "trace" msg = true := by
  obtain ⟨msg, he, hmm, hxx⟩ := C1_critical_error_raises
    [("@l", .jstr "Critical"), ("@m", .jstr "X"), ("@x", .jstr "trace")] "L"
    (.jstr "X") (.jstr "Critical") rfl rfl (Or.inl rfl)
  exact ⟨msg, he, hmm, hxx "trace" rfl⟩

/-- C4: for every input line that fails to parse as JSON, `processLine`
invokes no progress callback, raises nothing, and logs the whole line as
free-text debug output (after the fixed parse-failure debug message). -/
theorem C4_parse_failure_debug_only (line : String) :
    processLine .failure line =
      { logs := [(.debug, failParseMsg), (.debug, line)], progress := [],
        error := none } := rfl

/-- C6: whenever the `VSTS_ARTIFACTTOOL_OVERRIDE_PATH` override is set,
the updater returns exactly that string and issues no HTTP request of any
kind. -/
theorem C6_override_path_verbatim (p : String) (override_url : Option String)
    (etagHeader : String → Option String) (pathExists : String → Bool)
    (tempDir : String) :
    get_latest_artifacttool (some p) override_url etagHeader pathExists tempDir
      = { requests := [], result := .ok p } := rfl

/-- C7: with no path override set and the version-tagged binary path
already existing on disk, the updater returns that path after exactly one
HEAD request and no GET request. -/
theorem C7_cached_binary_no_get (override_url : Option String)
    (etagHeader : String → Option String) (pathExists : String → Bool)
    (tempDir raw : String)
    (hraw : etagHeader (artifacttool_url override_url) = some raw)
    (hex : pathExists (artifacttool_binary_path tempDir (normalize_etag raw))
        = true) :
    get_latest_artifacttool none override_url etagHeader pathExists tempDir
      = { requests := [(.head, artifacttool_url override_url)],
          result := .ok (artifacttool_binary_path tempDir (normalize_etag raw)) } := by
  simp [get_latest_artifacttool, update_artifacttool, hraw, hex]

/-- Witness for C7: a concrete remote with ETag header `"0xABC"` and a
filesystem on which every path exists. -/
theorem C7_cached_binary_no_get_witness :
    get_latest_artifacttool none none (fun _ => some "\"0xABC\"")
        (fun _ => true) "/tmp"
      = { requests := [(.head, artifacttool_url none)],
          result := .ok (artifacttool_binary_path "/tmp"
            (normalize_etag "\"0xABC\"")) } :=
  C7_cached_binary_no_get none (fun _ => some "\"0xABC\"") (fun _ => true)
    "/tmp" "\"0xABC\"" rfl rfl

/-- C9 counterexample: the initial progress label of the publish
operation is "Publishing", not "Uploading" as the claim states. -/
theorem C9_counterexample_publish_label :
    (publish_upack "https://a.visualstudio.com" "f" "n" "1.0.0" none "p"
        "tool" "pw" []).initial_progress_message = "Publishing"
    ∧ "Publishing" ≠ "Uploading" := ⟨rfl, by decide⟩

/-- C9 (amended): the initial progress label passed to the subprocess
runner is "Downloading" for the download operation and "Publishing" for
the publish operation. -/
theorem C9_amended_labels (ti feed pname pver path tool pw : String)
    (descr : Option String) (env : List (String × String)) :
    (download_upack ti feed pname pver path tool pw env).initial_progress_message
        = "Downloading"
    ∧ (publish_upack ti feed pname pver descr path tool pw
        env).initial_progress_message = "Publishing" := ⟨rfl, rfl⟩

/-- C10 counterexample: the line `null` parses successfully as JSON to a
non-container value, yet `processLine` raises nothing and takes the
silent debug path — refuting the claim that only parse failures do. -/
theorem C10_counterexample_null_line :
    processLine (.success .jnull) "null" =
      { logs := [(.debug, "null")], progress := [], error := none } := rfl

/-- C10 (amended): lines parsing to JSON numbers or booleans make
`processLine` raise a `TypeError` at the `'@m' in json_line` membership
test (no progress callback, no log); a line parsing to JSON `null`
becomes Python `None` and takes the same silent debug path as a parse
failure. -/
theorem C10_amended_nonobject_lines (line : String) (q : ℚ) (b : Bool) :
    (processLine (.success (.jnum q)) line
        = { logs := [], progress := [], error := some .typeError })
    ∧ (processLine (.success (.jbool b)) line
        = { logs := [], progress := [], error := some .typeError })
    ∧ (processLine (.success .jnull) line
        = { logs := [(.debug, line)], progress := [], error := none }) :=
  ⟨rfl, rfl, rfl⟩

/-- C2 counterexample: a line carrying both a recognized progress event
and an "Error"-severity message raises before the event handling runs, so
the progress callback is never invoked — refuting the claimed
independence. -/
theorem C2_counterexample_error_line_no_progress :
    (processLine (.success (.jobj [("@m", .jstr "boom"), ("@l", .jstr "Error"),
        ("EventId", .jobj [("Name", .jstr "Uploading")]),
        ("UploadedBytes", .jnum 50), ("TotalBytes", .jnum 200)])) "L").progress
      = []
    ∧ (processLine (.success (.jobj [("@m", .jstr "boom"),
        ("@l", .jstr "Error"),
        ("EventId", .jobj [("Name", .jstr "Uploading")]),
        ("UploadedBytes", .jnum 50), ("TotalBytes", .jnum 200)])) "L").error
      = some (.cliError "boom") := ⟨rfl, rfl⟩

/-- C2 (amended): for every line parsing as a JSON object carrying a
recognized event descriptor with its numeric fields present and a nonzero
total, `processLine` invokes the progress callback with the computed
percent, provided the message handling does not raise (the message field
is absent, or the defaulted severity is neither "Critical" nor "Error");
when the message handling raises, no progress callback is invoked. -/
theorem C2_amended_progress_independent_unless_raise
    (fs efs : List (String × JValue)) (line : String)
    (name doneKey totalKey : String) (d t : ℚ)
    (hev : jlookup "EventId" fs = some (.jobj efs))
    (hname : jlookup "Name" efs = some (.jstr name))
    (hkeys : (name = "ProcessingFiles" ∧ doneKey = "ProcessedFiles" ∧
                totalKey = "TotalFiles") ∨
             (name = "Uploading" ∧ doneKey = "UploadedBytes" ∧
                totalKey = "TotalBytes") ∨
             (name = "Downloading" ∧ doneKey = "DownloadedBytes" ∧
                totalKey = "TotalBytes"))
    (hd : jlookup doneKey fs = some (.jnum d))
    (ht : jlookup totalKey fs = some (.jnum t))
    (htz : t ≠ 0)
    (hquiet : jlookup "@m" fs = none ∨
      (eqStr ((jlookup "@l" fs).getD (.jstr "Information")) "Critical" = false ∧
       eqStr ((jlookup "@l" fs).getD (.jstr "Information")) "Error" = false)) :
    ∃ msg, (processLine (.success (.jobj fs)) line).progress
        = [(msg, 100 * d / t)]
      ∧ (processLine (.success (.jobj fs)) line).error = none := by
  have hq2 : (handleMessage (some (.jobj fs)) line).2 = none :=
    handleMessage_quiet fs line hquiet
  have hpl := processLine_jobj fs line
  rw [hq2] at hpl
  rcases hkeys with ⟨h1, h2, h3⟩ | ⟨h1, h2, h3⟩ | ⟨h1, h2, h3⟩
  · subst h1; subst h2; subst h3
    have hEv := handleEvents_event fs efs "ProcessingFiles" "ProcessedFiles"
      "TotalFiles" "Pre-upload processing: " " files" d t hev hname
      (Or.inl ⟨rfl, rfl, rfl, rfl, rfl⟩) hd ht htz
    rw [hEv] at hpl
    exact ⟨_, by rw [hpl], by rw [hpl]⟩
  · subst h1; subst h2; subst h3
    have hEv := handleEvents_event fs efs "Uploading" "UploadedBytes"
      "TotalBytes" "Uploading: " " bytes" d t hev hname
      (Or.inr (Or.inl ⟨rfl, rfl, rfl, rfl, rfl⟩)) hd ht htz
    rw [hEv] at hpl
    exact ⟨_, by rw [hpl], by rw [hpl]⟩
  · subst h1; subst h2; subst h3
    have hEv := handleEvents_event fs efs "Downloading" "DownloadedBytes"
      "TotalBytes" "Downloading: " " bytes" d t hev hname
      (Or.inr (Or.inr ⟨rfl, rfl, rfl, rfl, rfl⟩)) hd ht htz
    rw [hEv] at hpl
    exact ⟨_, by rw [hpl], by rw [hpl]⟩

/-- Witness for the amended C2: a line with a Warning-severity message
and an Uploading event does report progress. -/
theorem C2_amended_progress_independent_unless_raise_witness :
    ∃ msg, (processLine (.success (.jobj [("@m", .jstr "w"),
        ("@l", .jstr "Warning"),
        ("EventId", .jobj [("Name", .jstr "Uploading")]),
        ("UploadedBytes", .jnum 50), ("TotalBytes", .jnum 200)])) "L").progress
          = [(msg, 100 * 50 / 200)]
      ∧ (processLine (.success (.jobj [("@m", .jstr "w"),
          ("@l", .jstr "Warning"),
          ("EventId", .jobj [("Name", .jstr "Uploading")]),
          ("UploadedBytes", .jnum 50), ("TotalBytes", .jnum 200)])) "L").error
        = none :=
  C2_amended_progress_independent_unless_raise _ _ "L" "Uploading"
    "UploadedBytes" "TotalBytes" 50 200 rfl rfl
    (Or.inr (Or.inl ⟨rfl, rfl, rfl⟩)) rfl rfl (by norm_num)
    (Or.inr ⟨rfl, rfl⟩)

/-- C5 counterexample: a Downloading-event line that also carries a
Critical-severity message raises and reports no progress, refuting the
universally quantified form of the claim. -/
theorem C5_counterexample_critical_line_no_progress :
    (processLine (.success (.jobj [("@m", .jstr "fatal"),
        ("@l", .jstr "Critical"),
        ("EventId", .jobj [("Name", .jstr "Downloading")]),
        ("DownloadedBytes", .jnum 50), ("TotalBytes", .jnum 200)])) "L").progress
      = []
    ∧ (processLine (.success (.jobj [("@m", .jstr "fatal"),
        ("@l", .jstr "Critical"),
        ("EventId", .jobj [("Name", .jstr "Downloading")]),
        ("DownloadedBytes", .jnum 50), ("TotalBytes", .jnum 200)])) "L").error
      = some (.cliError "fatal") := ⟨rfl, rfl⟩

/-- C5 (amended): for every line parsing as a JSON object with event name
"Downloading" and numeric `DownloadedBytes`/`TotalBytes` fields
(`TotalBytes` nonzero), whose message handling does not raise,
`processLine` invokes the progress callback once with percent
`100 * DownloadedBytes / TotalBytes` and a message containing both
counts. -/
theorem C5_amended_downloading_progress (fs efs : List (String × JValue))
    (line : String) (d t : ℚ)
    (hev : jlookup "EventId" fs = some (.jobj efs))
    (hname : jlookup "Name" efs = some (.jstr "Downloading"))
    (hd : jlookup "DownloadedBytes" fs = some (.jnum d))
    (ht : jlookup "TotalBytes" fs = some (.jnum t))
    (htz : t ≠ 0)
    (hquiet : jlookup "@m" fs = none ∨
      (eqStr ((jlookup "@l" fs).getD (.jstr "Information")) "Critical" = false ∧
       eqStr ((jlookup "@l" fs).getD (.jstr "Information")) "Error" = false)) :
    (processLine (.success (.jobj fs)) line).progress
      = [("Downloading: " ++ ratStr d ++ "/" ++ ratStr t ++ " bytes",
          100 * d / t)]
    ∧ (processLine (.success (.jobj fs)) line).error = none
    ∧ strIn (ratStr d)
        ("Downloading: " ++ ratStr d ++ "/" ++ ratStr t ++ " bytes") = true
    ∧ strIn (ratStr t)
        ("Downloading: " ++ ratStr d ++ "/" ++ ratStr t ++ " bytes") = true := by
  have hq2 : (handleMessage (some (.jobj fs)) line).2 = none :=
    handleMessage_quiet fs line hquiet
  have hpl := processLine_jobj fs line
  rw [hq2] at hpl
  have hEv := handleEvents_event fs efs "Downloading" "DownloadedBytes"
    "TotalBytes" "Downloading: " " bytes" d t hev hname
    (Or.inr (Or.inr ⟨rfl, rfl, rfl, rfl, rfl⟩)) hd ht htz
  rw [hEv] at hpl
  refine ⟨by rw [hpl], by rw [hpl], ?_, ?_⟩
  · have h2 := strIn_append_append "Downloading: " (ratStr d)
      ("/" ++ ratStr t ++ " bytes")
    simp only [String.append_assoc] at h2 ⊢
    exact h2
  · have h2 := strIn_append_append ("Downloading: " ++ ratStr d ++ "/")
      (ratStr t) " bytes"
    simp only [String.append_assoc] at h2 ⊢
    exact h2

/-- Witness for the amended C5 at
`{"EventId":{"Name":"Downloading"},"DownloadedBytes":50,"TotalBytes":200}`:
the percent is 25 and the message contains "50" and "200". -/
theorem C5_amended_downloading_progress_witness :
    ((processLine (.success (.jobj [("EventId",
          .jobj [("Name", .jstr "Downloading")]),
        ("DownloadedBytes", .jnum 50), ("TotalBytes", .jnum 200)])) "L").progress
        = [("Downloading: " ++ ratStr 50 ++ "/" ++ ratStr 200 ++ " bytes",
            100 * 50 / 200)]
      ∧ (processLine (.success (.jobj [("EventId",
            .jobj [("Name", .jstr "Downloading")]),
          ("DownloadedBytes", .jnum 50), ("TotalBytes", .jnum 200)])) "L").error
          = none
      ∧ strIn (ratStr 50)
          ("Downloading: " ++ ratStr 50 ++ "/" ++ ratStr 200 ++ " bytes") = true
      ∧ strIn (ratStr 200)
          ("Downloading: " ++ ratStr 50 ++ "/" ++ ratStr 200 ++ " bytes") = true)
    ∧ (100 * 50 / 200 : ℚ) = 25
    ∧ ratStr 50 = "50" ∧ ratStr 200 = "200" :=
  ⟨C5_amended_downloading_progress _ _ "L" 50 200 rfl rfl rfl rfl
      (by norm_num) (Or.inl rfl),
   by norm_num, rfl, rfl⟩

/-- C3: both operations bind the resolved credential in the child
environment under the fixed name `VSTS_ARTIFACTTOOL_PATVAR` (the child
environment is the parent environment plus exactly this entry), the
constructed argument list is independent of the credential (two runs
differing only in the credential produce identical argument lists), and
the credential is never an element of the argument list whenever it
differs from the caller-supplied arguments and the fixed flag strings. -/
theorem C3_credential_env_not_argv
    (ti feed pname pver path tool pw pw2 : String) (descr : Option String)
    (environ : List (String × String)) :
    (envLookup PATVAR (download_upack ti feed pname pver path tool pw
          environ).env = some pw
      ∧ envLookup PATVAR (publish_upack ti feed pname pver descr path tool pw
          environ).env = some pw)
    ∧ (∀ k, k ≠ PATVAR →
        envLookup k (download_upack ti feed pname pver path tool pw
            environ).env = envLookup k environ
        ∧ envLookup k (publish_upack ti feed pname pver descr path tool pw
            environ).env = envLookup k environ)
    ∧ ((download_upack ti feed pname pver path tool pw environ).command_args
        = (download_upack ti feed pname pver path tool pw2
            environ).command_args
      ∧ (publish_upack ti feed pname pver descr path tool pw
            environ).command_args
        = (publish_upack ti feed pname pver descr path tool pw2
            environ).command_args)
    ∧ (pw ≠ tool → pw ≠ ti → pw ≠ feed → pw ≠ pname → pw ≠ pver → pw ≠ path →
       (∀ dsc, descr = some dsc → pw ≠ dsc) →
       pw ∉ (["upack", "download", "publish", "--service", "--patvar", PATVAR,
         "--feed", "--package-name", "--package-version", "--path",
         "--description"] : List String) →
       pw ∉ (download_upack ti feed pname pver path tool pw
           environ).command_args
       ∧ pw ∉ (publish_upack ti feed pname pver descr path tool pw
           environ).command_args) := by
  refine ⟨⟨envLookup_envSet_self environ PATVAR pw,
           envLookup_envSet_self environ PATVAR pw⟩,
          fun k hk => ⟨envLookup_envSet_ne environ PATVAR pw k hk,
                       envLookup_envSet_ne environ PATVAR pw k hk⟩,
          ⟨rfl, rfl⟩, ?_⟩
  intro h1 h2 h3 h4 h5 h6 hdesc hfix
  simp only [List.mem_cons, List.mem_singleton, not_or] at hfix
  obtain ⟨f1, f2, f3, f4, f5, f6, f7, f8, f9, f10, f11⟩ := hfix
  constructor
  · simp only [download_upack, invoke_artifacttool, List.mem_cons,
      List.not_mem_nil, or_false, not_or]
    exact ⟨h1, f1, f2, f4, h2, f5, f6, f7, h3, f8, h4, f9, h5, f10, h6⟩
  · cases descr with
    | none =>
      simp only [publish_upack, invoke_artifacttool, List.mem_cons,
        List.not_mem_nil, or_false, not_or]
      exact ⟨h1, f1, f3, f4, h2, f5, f6, f7, h3, f8, h4, f9, h5, f10, h6⟩
    | some dsc =>
      have hd : pw ≠ dsc := hdesc dsc rfl
      by_cases he : dsc = ""
      · simp only [publish_upack, invoke_artifacttool, he, ne_eq,
          not_true_eq_false, if_false, List.mem_cons, List.not_mem_nil,
          or_false, not_or]
        exact ⟨h1, f1, f3, f4, h2, f5, f6, f7, h3, f8, h4, f9, h5, f10, h6⟩
      · simp only [publish_upack, invoke_artifacttool, ne_eq, he,
          not_false_eq_true, if_true, List.mem_cons, List.mem_append,
          List.not_mem_nil, or_false, not_or]
        exact ⟨h1, ⟨f1, f3, f4, h2, f5, f6, f7, h3, f8, h4, f9, h5, f10, h6⟩,
          f11.1, hd⟩

/-- Witness for C3 at concrete values with a distinct secret. -/
theorem C3_credential_env_not_argv_witness :
    (envLookup PATVAR (download_upack "https://a.visualstudio.com" "f" "n"
          "1.0.0" "/p" "/tool" "s3cret" [("HOME", "/home/u")]).env
        = some "s3cret"
      ∧ envLookup PATVAR (publish_upack "https://a.visualstudio.com" "f" "n"
          "1.0.0" (some "desc") "/p" "/tool" "s3cret"
          [("HOME", "/home/u")]).env = some "s3cret")
    ∧ ("s3cret" ∉ (download_upack "https://a.visualstudio.com" "f" "n" "1.0.0"
          "/p" "/tool" "s3cret" [("HOME", "/home/u")]).command_args
      ∧ "s3cret" ∉ (publish_upack "https://a.visualstudio.com" "f" "n" "1.0.0"
          (some "desc") "/p" "/tool" "s3cret"
          [("HOME", "/home/u")]).command_args) := by
  have h := C3_credential_env_not_argv "https://a.visualstudio.com" "f" "n"
    "1.0.0" "/p" "/tool" "s3cret" "other" (some "desc") [("HOME", "/home/u")]
  refine ⟨h.1, ?_⟩
  refine h.2.2.2 (by decide) (by decide) (by decide) (by decide) (by decide)
    (by decide) ?_ (by decide)
  intro dsc hdsc
  injection hdsc with hdsc2
  subst hdsc2
  decide

/-! ## ETag-normalization lemmas (for C8) -/

theorem dropWhile_quote_cons_append (l m : List Char) (hl : '"' ∉ l)
    (hm : m.dropWhile (· = '"') = m) :
    (l ++ m).dropWhile (· = '"') = l ++ m := by
  cases l with
  | nil => simpa using hm
  | cons c cs =>
    have hc : ¬(c = '"') := fun e => hl (e ▸ List.mem_cons_self c cs)
    simp [List.dropWhile_cons, hc]

theorem replace0x_skip (a b : List Char) (ha : '0' ∉ a) :
    replace0x (a ++ '0' :: 'x' :: b) = a ++ replace0x b := by
  induction a with
  | nil => simp [replace0x]
  | cons c cs ih =>
    have hc : ¬(c = '0') := fun e => ha (e ▸ List.mem_cons_self c cs)
    have ha' : '0' ∉ cs := fun e => ha (List.mem_cons_of_mem c e)
    cases cs with
    | nil => simp [replace0x, hc]
    | cons c2 cs2 =>
      have step : replace0x (c :: c2 :: (cs2 ++ '0' :: 'x' :: b))
          = c :: replace0x (c2 :: (cs2 ++ '0' :: 'x' :: b)) := by
        simp only [replace0x]
        rw [if_neg (by simp [hc])]
      have ih' := ih ha'
      rw [List.cons_append] at ih'
      calc replace0x ((c :: c2 :: cs2) ++ '0' :: 'x' :: b)
          = replace0x (c :: c2 :: (cs2 ++ '0' :: 'x' :: b)) := rfl
        _ = c :: replace0x (c2 :: (cs2 ++ '0' :: 'x' :: b)) := step
        _ = c :: (c2 :: (cs2 ++ replace0x b)) := by rw [ih']; exact rfl
        _ = (c :: c2 :: cs2) ++ replace0x b := rfl

/-- Stripping the surrounding quotes of `"<a>0x<b>"` yields `<a>0x<b>`
when neither part contains a quote character. -/
theorem stripQuotesList_wrap (a b : List Char) (haq : '"' ∉ a)
    (hbq : '"' ∉ b) :
    stripQuotesList ('"' :: (a ++ '0' :: 'x' :: (b ++ ['"'])))
      = a ++ '0' :: 'x' :: b := by
  unfold stripQuotesList
  have h1 : ('"' :: (a ++ '0' :: 'x' :: (b ++ ['"']))).dropWhile (· = '"')
      = a ++ '0' :: 'x' :: (b ++ ['"']) := by
    rw [List.dropWhile_cons, if_pos (by decide)]
    exact dropWhile_quote_cons_append a ('0' :: 'x' :: (b ++ ['"'])) haq
      (by rw [List.dropWhile_cons, if_neg (by decide)])
  rw [h1]
  have h2 : (a ++ '0' :: 'x' :: (b ++ ['"'])).reverse
      = '"' :: (b.reverse ++ 'x' :: '0' :: a.reverse) := by
    simp [List.reverse_append, List.reverse_cons]
  rw [h2]
  have hbr : '"' ∉ b.reverse := fun e => hbq (List.mem_reverse.mp e)
  rw [List.dropWhile_cons, if_pos (by decide)]
  rw [dropWhile_quote_cons_append b.reverse ('x' :: '0' :: a.reverse) hbr
    (by rw [List.dropWhile_cons, if_neg (by decide)])]
  simp [List.reverse_append, List.reverse_cons]

/-- Modelled from the claim's words (not from the source): normalization
whose prefix removal affects only a leading occurrence of "0x". -/
def normalize_etag_leading_only (raw : String) : String :=
  let s := stripQuotesList raw.toList
  let s2 := if s.take 2 = ['0', 'x'] then s.drop 2 else s
  String.mk (s2.map Char.toLower)

/-- C8 counterexample: for header value `"0xAB0xCD"` the code removes
every occurrence of "0x" and produces "abcd", while leading-only removal
would produce "ab0xcd". -/
theorem C8_counterexample_nonleading_removed :
    normalize_etag "\"0xAB0xCD\"" = "abcd"
    ∧ normalize_etag_leading_only "\"0xAB0xCD\"" = "ab0xcd"
    ∧ normalize_etag "\"0xAB0xCD\""
        ≠ normalize_etag_leading_only "\"0xAB0xCD\"" := by
  refine ⟨rfl, rfl, ?_⟩
  decide

/-- C8 (amended): the version tag is the lowercase of the quote-stripped
header value with every left-to-right non-overlapping occurrence of "0x"
removed: an occurrence following any `0`-free, quote-free prefix is
removed as well, not only a leading one. -/
theorem C8_amended_removes_every_occurrence (a b : String)
    (ha0 : '0' ∉ a.toList) (haq : '"' ∉ a.toList) (hbq : '"' ∉ b.toList) :
    normalize_etag ("\"" ++ a ++ "0x" ++ b ++ "\"")
      = String.mk ((a.toList ++ replace0x b.toList).map Char.toLower) := by
  unfold normalize_etag
  have hlist : ("\"" ++ a ++ "0x" ++ b ++ "\"").toList
      = '"' :: (a.toList ++ '0' :: 'x' :: (b.toList ++ ['"'])) := by
    show ("\"" ++ a ++ "0x" ++ b ++ "\"").data
        = '"' :: (a.data ++ '0' :: 'x' :: (b.data ++ ['"']))
    simp [String.data_append]
  rw [hlist, stripQuotesList_wrap a.toList b.toList haq hbq,
    replace0x_skip a.toList b.toList ha0]

/-- Witness for the amended C8: header value `"ab0xcd"` yields tag
"abcd", the interior "0x" removed. -/
theorem C8_amended_removes_every_occurrence_witness :
    normalize_etag ("\"" ++ "ab" ++ "0x" ++ "cd" ++ "\"")
      = String.mk (("ab".toList ++ replace0x "cd".toList).map Char.toLower)
    ∧ normalize_etag "\"ab0xcd\"" = "abcd" :=
  ⟨C8_amended_removes_every_occurrence "ab" "cd" (by decide) (by decide)
    (by decide), rfl⟩

end ArtifactTool
